import Mathlib

/-!
Shallow embedding of the Library Management System (`src/main.py`) and
verification of its specification's claims.

Modelling conventions:
* pandas `DataFrame` tables become Lean lists of records, one record per row,
  in row order (`iloc[0]` = first list element satisfying the row mask).
* timestamps (`pd.Timestamp`) become `Nat` (seconds since an arbitrary epoch);
  `pd.NaT` (absent `ReturnDate`) becomes `none`.
* `input()` values become explicit arguments; `int(...)` applied to the raw
  copies string is modelled by an `Option Int` argument (`none` = the string
  is non-numeric, i.e. `int` raised `ValueError`).
* each operation returns its outcome (which message the code prints) together
  with the updated tables, exactly as the code returns the updated DataFrames.
-/

/-- A row of the Books table (`books.csv`):
BookID, Title, Author, TotalCopies, AvailableCopies. -/
structure Book where
  bookID : String
  title : String
  author : String
  totalCopies : Int
  availableCopies : Int
deriving Repr, DecidableEq

/-- A row of the Loans table (`users.csv`):
UserID, Name, BookID, IssueDate, ReturnDate.
`returnDate = none` models pandas `NaT` (loan outstanding). -/
structure Loan where
  userID : String
  name : String
  bookID : String
  issueDate : Nat
  returnDate : Option Nat
deriving Repr, DecidableEq

/-- A row of the Logs table (`logs.csv`): UserID, BookID, Action, Date. -/
structure LogEntry where
  userID : String
  bookID : String
  action : String
  date : Nat
deriving Repr, DecidableEq

/-- `FINE_PER_DAY = 5` (main.py line 12). -/
def FINE_PER_DAY : Int := 5

/-- Seconds per day; `(today - issue_date).days` divides the elapsed time by
this and discards the remainder. -/
def SECONDS_PER_DAY : Nat := 86400

/-- Outcome of `add_book`: which message the function prints. -/
inductive AddResult where
  | duplicateID
  | invalidInput
  | added
deriving Repr, DecidableEq

/-- `add_book(books)` (main.py lines 37-55).  The id is checked against the
existing `BookID` column first; then the copies input is validated
(`int(...)` failing or `copies < 1` both print "Invalid number of copies");
otherwise one row `[book_id, title, author, copies, copies]` is appended. -/
def add_book (books : List Book) (book_id title author : String)
    (copies? : Option Int) : AddResult × List Book :=
  if books.any (fun b => b.bookID == book_id) then
    (AddResult.duplicateID, books)
  else
    match copies? with
    | none => (AddResult.invalidInput, books)
    | some copies =>
      if copies < 1 then
        (AddResult.invalidInput, books)
      else
        (AddResult.added,
         books ++ [{ bookID := book_id, title := title, author := author,
                     totalCopies := copies, availableCopies := copies }])

/-- Outcome of `issue_book`. -/
inductive IssueResult where
  | notFound
  | noAvailability
  | issued
deriving Repr, DecidableEq

/-- `issue_book(books, users, logs)` (main.py lines 57-77).
`book_id not in books["BookID"].values` is exactly `find? = none`;
`books[books["BookID"] == book_id].iloc[0]` is the first matching row.
On success the code appends one Loan row with `ReturnDate = NaT`, runs
`books.loc[books["BookID"] == book_id, "AvailableCopies"] -= 1` (which
decrements every row whose BookID matches), and appends one log row. -/
def issue_book (books : List Book) (users : List Loan) (logs : List LogEntry)
    (user_id name book_id : String) (now : Nat) :
    IssueResult × List Book × List Loan × List LogEntry :=
  match books.find? (fun b => b.bookID == book_id) with
  | none => (IssueResult.notFound, books, users, logs)
  | some book_row =>
    if book_row.availableCopies ≤ 0 then
      (IssueResult.noAvailability, books, users, logs)
    else
      (IssueResult.issued,
       books.map (fun b =>
         if b.bookID == book_id then
           { b with availableCopies := b.availableCopies - 1 }
         else b),
       users ++ [{ userID := user_id, name := name, bookID := book_id,
                   issueDate := now, returnDate := none }],
       logs ++ [{ userID := user_id, bookID := book_id, action := "Issued",
                  date := now }])

/-- The row mask of `return_book` (main.py line 84):
`(users["UserID"] == user_id) & (users["BookID"] == book_id) & (users["ReturnDate"].isna())`. -/
def loanMatches (user_id book_id : String) (l : Loan) : Bool :=
  l.userID == user_id && l.bookID == book_id && l.returnDate.isNone

/-- Outcome of `return_book`; `returned fine` carries the computed fine
(the code prints it when positive). -/
inductive ReturnResult where
  | noActiveLoan
  | returned (fine : Int)
deriving Repr, DecidableEq

/-- `return_book(books, users, logs)` (main.py lines 79-101).
`mask.any()` failing is `find? = none`.  `users.loc[mask, "IssueDate"].iloc[0]`
is the first mask match; `(today - issue_date).days` truncates to whole days;
`fine = max(0, (return_days - 14) * FINE_PER_DAY)`.
`users.loc[mask, "ReturnDate"] = today` stamps EVERY masked row;
`books.loc[books["BookID"] == book_id, "AvailableCopies"] += 1` increments
every Books row whose BookID matches. -/
def return_book (books : List Book) (users : List Loan) (logs : List LogEntry)
    (user_id book_id : String) (now : Nat) :
    ReturnResult × List Book × List Loan × List LogEntry :=
  match users.find? (loanMatches user_id book_id) with
  | none => (ReturnResult.noActiveLoan, books, users, logs)
  | some firstLoan =>
    let return_days : Int := ((now - firstLoan.issueDate) / SECONDS_PER_DAY : Nat)
    let fine : Int := max 0 ((return_days - 14) * FINE_PER_DAY)
    (ReturnResult.returned fine,
     books.map (fun b =>
       if b.bookID == book_id then
         { b with availableCopies := b.availableCopies + 1 }
       else b),
     users.map (fun l =>
       if loanMatches user_id book_id l then { l with returnDate := some now }
       else l),
     logs ++ [{ userID := user_id, bookID := book_id, action := "Returned",
                date := now }])

/-- The three in-memory tables held by `main()`. -/
structure LibState where
  books : List Book
  users : List Loan
  logs : List LogEntry
deriving Repr, DecidableEq

/-- The values the menu handlers read from standard input during one
iteration of the loop (each branch consumes the fields it needs). -/
structure MenuInputs where
  userId : String
  name : String
  bookId : String
  titleIn : String
  authorIn : String
  copies? : Option Int
  now : Nat
deriving Repr

/-- One iteration of the menu loop in `main()` (main.py lines 131-159):
dispatch on the choice string, update the tables, and report whether the
loop terminates (`break` happens only on choice "7"; choices "4", "5", "6"
and unrecognized input leave the tables untouched and continue). -/
def menu_step (choice : String) (inp : MenuInputs) (st : LibState) :
    LibState × Bool :=
  if choice == "1" then
    let r := add_book st.books inp.bookId inp.titleIn inp.authorIn inp.copies?
    ({ st with books := r.2 }, false)
  else if choice == "2" then
    let r := issue_book st.books st.users st.logs inp.userId inp.name
      inp.bookId inp.now
    ({ books := r.2.1, users := r.2.2.1, logs := r.2.2.2 }, false)
  else if choice == "3" then
    let r := return_book st.books st.users st.logs inp.userId inp.bookId inp.now
    ({ books := r.2.1, users := r.2.2.1, logs := r.2.2.2 }, false)
  else if choice == "7" then
    (st, true)
  else
    (st, false)

/-- Number of occurrences of `x` in a list of BookIDs:
`users["BookID"].value_counts()` counts every Loan row, outstanding or
returned alike. -/
def countOcc (l : List String) (x : String) : Nat :=
  l.countP (fun y => y == x)

/-- `users["BookID"].value_counts()` (main.py line 112): one entry per
distinct BookID with its occurrence count, sorted by count descending.
pandas leaves the relative order of equal counts unspecified (spec §9 open
question), so the model fixes an arbitrary enumeration of the distinct ids
and a stable sort. -/
def value_counts (l : List String) : List (String × Nat) :=
  (l.dedup.map (fun b => (b, countOcc l b))).mergeSort
    (fun p q => decide (q.2 ≤ p.2))

/-- `books.set_index("BookID")["Title"].get(bid, bid)` (main.py lines
113-114): the Title of the (first) Books row with this BookID, or the raw
BookID string when no such row exists. -/
def lookupTitle (books : List Book) (bid : String) : String :=
  match books.find? (fun b => b.bookID == bid) with
  | some b => b.title
  | none => bid

/-- `visualize_top_books(users, books)` (main.py lines 107-120): `none` when
the Loans table is empty (the code prints "No borrowing records yet" and
returns); otherwise the labelled `(label, count)` bars handed to the chart:
`value_counts().nlargest(5)` relabelled through the Title lookup. -/
def visualize_top_books (users : List Loan) (books : List Book) :
    Option (List (String × Nat)) :=
  if users.isEmpty then none
  else
    let top_books := (value_counts (users.map Loan.bookID)).take 5
    some (top_books.map (fun p => (lookupTitle books p.1, p.2)))

/-- Number of outstanding (ReturnDate absent) Loan rows for a BookID. -/
def outstandingCount (users : List Loan) (bid : String) : Nat :=
  (users.filter (fun l => l.bookID == bid && l.returnDate.isNone)).length

/-- The spec §3 invariant: for every Books row,
`AvailableCopies = TotalCopies - count(outstanding Loans for that BookID)`
and that count is at most `TotalCopies`. -/
def invariantHolds (books : List Book) (users : List Loan) : Prop :=
  ∀ b ∈ books,
    b.availableCopies = b.totalCopies - (outstandingCount users b.bookID : Int)
    ∧ (outstandingCount users b.bookID : Int) ≤ b.totalCopies

instance (books : List Book) (users : List Loan) :
    Decidable (invariantHolds books users) := by
  unfold invariantHolds; infer_instance

/-- The spec §3 data-model constraint that every outstanding Loan row
references an existing Book (`BookID ... must reference an existing Book`). -/
def refIntegrity (books : List Book) (users : List Loan) : Prop :=
  ∀ l ∈ users, l.returnDate.isNone = true → l.bookID ∈ books.map Book.bookID

instance (books : List Book) (users : List Loan) :
    Decidable (refIntegrity books users) := by
  unfold refIntegrity; infer_instance

/-! ### Helper lemmas -/

theorem any_bookID_iff_mem (books : List Book) (bid : String) :
    books.any (fun b => b.bookID == bid) = true ↔ bid ∈ books.map Book.bookID := by
  rw [List.any_eq_true]
  constructor
  · rintro ⟨b, hb, hbeq⟩
    exact List.mem_map.2 ⟨b, hb, by simpa using hbeq⟩
  · intro h
    rcases List.mem_map.1 h with ⟨b, hb, hbeq⟩
    exact ⟨b, hb, by simpa using hbeq⟩

theorem find?_bookID_eq_none_iff (books : List Book) (bid : String) :
    books.find? (fun b => b.bookID == bid) = none ↔ bid ∉ books.map Book.bookID := by
  rw [List.find?_eq_none]
  constructor
  · intro h hmem
    rcases List.mem_map.1 hmem with ⟨b, hb, hbeq⟩
    exact (h b hb) (by simpa using hbeq)
  · intro h b hb hbeq
    exact h (List.mem_map.2 ⟨b, hb, by simpa using hbeq⟩)

/-! ### C5: add-book -/

/-- C5. `add_book`: a duplicate id fails with DuplicateID leaving Books
unchanged (checked first, regardless of the copies input); a non-numeric
copies input (`none`) or `copies < 1` fails with InvalidInput leaving Books
unchanged; otherwise exactly one row is appended, with
`AvailableCopies = TotalCopies = copies`. -/
theorem add_book_spec (books : List Book) (bid t a : String)
    (copies? : Option Int) :
    (bid ∈ books.map Book.bookID →
      add_book books bid t a copies? = (AddResult.duplicateID, books)) ∧
    (bid ∉ books.map Book.bookID → copies? = none →
      add_book books bid t a copies? = (AddResult.invalidInput, books)) ∧
    (∀ c : Int, bid ∉ books.map Book.bookID → copies? = some c → c < 1 →
      add_book books bid t a copies? = (AddResult.invalidInput, books)) ∧
    (∀ c : Int, bid ∉ books.map Book.bookID → copies? = some c → 1 ≤ c →
      ∃ nb : Book,
        add_book books bid t a copies? = (AddResult.added, books ++ [nb]) ∧
        nb.availableCopies = c ∧ nb.totalCopies = c ∧
        nb.bookID = bid ∧ nb.title = t ∧ nb.author = a) := by
  have hany := any_bookID_iff_mem books bid
  refine ⟨?_, ?_, ?_, ?_⟩
  · intro h
    have hb : books.any (fun b => b.bookID == bid) = true := hany.2 h
    simp [add_book, hb]
  · intro h hc
    have hb : books.any (fun b => b.bookID == bid) = false := by
      rw [Bool.eq_false_iff]; intro hh; exact h (hany.1 hh)
    simp [add_book, hb, hc]
  · intro c h hc hlt
    have hb : books.any (fun b => b.bookID == bid) = false := by
      rw [Bool.eq_false_iff]; intro hh; exact h (hany.1 hh)
    simp [add_book, hb, hc, hlt]
  · intro c h hc hge
    have hb : books.any (fun b => b.bookID == bid) = false := by
      rw [Bool.eq_false_iff]; intro hh; exact h (hany.1 hh)
    refine ⟨{ bookID := bid, title := t, author := a,
              totalCopies := c, availableCopies := c }, ?_, rfl, rfl, rfl, rfl, rfl⟩
    simp [add_book, hb, hc, not_lt.2 hge]

/-- Witness for C5 at concrete inputs: a duplicate id is rejected without
altering the existing row, and a fresh id is appended. -/
theorem add_book_spec_witness :
    add_book [{ bookID := "B1", title := "T", author := "A",
                totalCopies := 2, availableCopies := 2 }] "B1" "X" "Y" (some 3) =
      (AddResult.duplicateID,
       [{ bookID := "B1", title := "T", author := "A",
          totalCopies := 2, availableCopies := 2 }]) :=
  (add_book_spec [{ bookID := "B1", title := "T", author := "A",
                    totalCopies := 2, availableCopies := 2 }] "B1" "X" "Y"
    (some 3)).1 (by decide)

/-! ### C9: double issue to the same user -/

/-- C9. `issue_book` checks only existence and availability, so issuing the
same available book twice to the same user reaches a state with two
simultaneous outstanding Loan rows for one (UserID, BookID) pair. -/
theorem double_issue_reachable :
    (add_book [] "B1" "T" "A" (some 2)).1 = AddResult.added ∧
    (issue_book (add_book [] "B1" "T" "A" (some 2)).2 [] [] "U1" "N" "B1" 10).1
      = IssueResult.issued ∧
    (issue_book
        (issue_book (add_book [] "B1" "T" "A" (some 2)).2 [] [] "U1" "N" "B1" 10).2.1
        (issue_book (add_book [] "B1" "T" "A" (some 2)).2 [] [] "U1" "N" "B1" 10).2.2.1
        (issue_book (add_book [] "B1" "T" "A" (some 2)).2 [] [] "U1" "N" "B1" 10).2.2.2
        "U1" "N" "B1" 20).1 = IssueResult.issued ∧
    ((issue_book
        (issue_book (add_book [] "B1" "T" "A" (some 2)).2 [] [] "U1" "N" "B1" 10).2.1
        (issue_book (add_book [] "B1" "T" "A" (some 2)).2 [] [] "U1" "N" "B1" 10).2.2.1
        (issue_book (add_book [] "B1" "T" "A" (some 2)).2 [] [] "U1" "N" "B1" 10).2.2.2
        "U1" "N" "B1" 20).2.2.1.filter (loanMatches "U1" "B1")).length = 2 := by
  decide

/-! ### C6: user-input errors leave state unchanged, loop continues -/

/-- C6. Every user-input-driven error (DuplicateID, InvalidInput, NotFound,
NoAvailability, NoActiveLoan) returns all tables exactly as they were, and
one iteration of the menu loop terminates the loop only on choice "7" —
every operation outcome, error or not, returns control to the menu. -/
theorem errors_leave_state_unchanged
    (books : List Book) (users : List Loan) (logs : List LogEntry)
    (uid nm bid t a : String) (copies? : Option Int) (now : Nat)
    (choice : String) (inp : MenuInputs) (st : LibState) :
    ((add_book books bid t a copies?).1 = AddResult.duplicateID ∨
        (add_book books bid t a copies?).1 = AddResult.invalidInput →
      (add_book books bid t a copies?).2 = books) ∧
    ((issue_book books users logs uid nm bid now).1 = IssueResult.notFound ∨
        (issue_book books users logs uid nm bid now).1 = IssueResult.noAvailability →
      (issue_book books users logs uid nm bid now).2 = (books, users, logs)) ∧
    ((return_book books users logs uid bid now).1 = ReturnResult.noActiveLoan →
      (return_book books users logs uid bid now).2 = (books, users, logs)) ∧
    ((menu_step choice inp st).2 = true ↔ choice = "7") := by
  refine ⟨?_, ?_, ?_, ?_⟩
  · unfold add_book
    split
    · intro _; rfl
    · split
      · intro _; rfl
      · split
        · intro _; rfl
        · rintro (h | h) <;> simp at h
  · unfold issue_book
    split
    · intro _; rfl
    · split
      · intro _; rfl
      · rintro (h | h) <;> simp at h
  · unfold return_book
    split
    · intro _; rfl
    · intro h; simp at h
  · unfold menu_step
    split
    · next h =>
        simp only [beq_iff_eq] at h
        subst h
        simp
    · split
      · next h =>
          simp only [beq_iff_eq] at h
          subst h
          simp
      · split
        · next h =>
            simp only [beq_iff_eq] at h
            subst h
            simp
        · split
          · next h =>
              simp only [beq_iff_eq] at h
              subst h
              simp
          · next _ _ _ h =>
              simp only [beq_iff_eq] at h
              simp [h]

/-- Witness for C6 at concrete inputs: each error outcome leaves the
concrete tables unchanged and the loop continues on a non-exit choice. -/
theorem errors_leave_state_unchanged_witness :
    (add_book [] "B1" "T" "A" none).2 = [] ∧
    (issue_book [] [] [] "U1" "N" "B1" 0).2 = ([], [], []) ∧
    (return_book [] [] [] "U1" "B1" 0).2 = ([], [], []) ∧
    ((menu_step "2" ⟨"U1", "N", "B1", "", "", none, 0⟩
        ⟨[], [], []⟩).2 = true ↔ "2" = "7") :=
  ⟨(errors_leave_state_unchanged [] [] [] "U1" "N" "B1" "T" "A" none 0 "2"
      ⟨"U1", "N", "B1", "", "", none, 0⟩ ⟨[], [], []⟩).1 (Or.inr (by decide)),
   (errors_leave_state_unchanged [] [] [] "U1" "N" "B1" "T" "A" none 0 "2"
      ⟨"U1", "N", "B1", "", "", none, 0⟩ ⟨[], [], []⟩).2.1 (Or.inl (by decide)),
   (errors_leave_state_unchanged [] [] [] "U1" "N" "B1" "T" "A" none 0 "2"
      ⟨"U1", "N", "B1", "", "", none, 0⟩ ⟨[], [], []⟩).2.2.1 (by decide),
   (errors_leave_state_unchanged [] [] [] "U1" "N" "B1" "T" "A" none 0 "2"
      ⟨"U1", "N", "B1", "", "", none, 0⟩ ⟨[], [], []⟩).2.2.2⟩

theorem find?_congr_pred {α : Type} (p q : α → Bool) (l : List α)
    (h : ∀ a, p a = q a) : l.find? p = l.find? q := by
  have hpq : p = q := funext h
  rw [hpq]

/-! ### C1: issue -/

/-- C1. `issue_book`: an absent bookId reports NotFound with all tables
unchanged; an existing book with `AvailableCopies ≤ 0` reports
NoAvailability with all tables unchanged; otherwise exactly one Loan row
`{uid, nm, bid, IssueDate = now, ReturnDate absent}` is appended, the
book's AvailableCopies is decremented by exactly 1, and exactly one
LogEntry with Action = "Issued" is appended; the success postcondition
holds iff `AvailableCopies > 0` held. -/
theorem issue_book_spec (books : List Book) (users : List Loan)
    (logs : List LogEntry) (uid nm bid : String) (now : Nat) :
    (bid ∉ books.map Book.bookID →
      issue_book books users logs uid nm bid now
        = (IssueResult.notFound, books, users, logs)) ∧
    (∀ row, books.find? (fun b => b.bookID == bid) = some row →
      (row.availableCopies ≤ 0 →
        issue_book books users logs uid nm bid now
          = (IssueResult.noAvailability, books, users, logs)) ∧
      (0 < row.availableCopies →
        (issue_book books users logs uid nm bid now).1 = IssueResult.issued ∧
        (issue_book books users logs uid nm bid now).2.2.1
          = users ++ [⟨uid, nm, bid, now, none⟩] ∧
        (issue_book books users logs uid nm bid now).2.2.2
          = logs ++ [⟨uid, bid, "Issued", now⟩] ∧
        (issue_book books users logs uid nm bid now).2.1.find?
            (fun b => b.bookID == bid)
          = some { row with availableCopies := row.availableCopies - 1 }) ∧
      (((issue_book books users logs uid nm bid now).1 = IssueResult.issued ∧
          (issue_book books users logs uid nm bid now).2.2.1.length
            = users.length + 1)
        ↔ 0 < row.availableCopies)) := by
  constructor
  · intro h
    have hf := (find?_bookID_eq_none_iff books bid).2 h
    simp only [issue_book, hf]
  · intro row hrow
    simp only [issue_book, hrow]
    by_cases hav : row.availableCopies ≤ 0
    · rw [if_pos hav]
      refine ⟨fun _ => rfl, fun hpos => absurd hpos (not_lt.2 hav), ?_⟩
      constructor
      · rintro ⟨h1, -⟩
        exact absurd h1 (by simp)
      · intro hpos
        exact absurd hpos (not_lt.2 hav)
    · rw [if_neg hav]
      have hpos := not_le.1 hav
      have hrowbid : (row.bookID == bid) = true :=
        List.find?_some (p := fun b : Book => b.bookID == bid) hrow
      refine ⟨fun hle => absurd hle hav, fun _ => ⟨rfl, rfl, rfl, ?_⟩, ?_⟩
      · rw [List.find?_map]
        have hpred : ((fun b : Book => b.bookID == bid) ∘ (fun b : Book =>
            if b.bookID == bid then
              { b with availableCopies := b.availableCopies - 1 }
            else b)) = (fun b : Book => b.bookID == bid) := by
          funext b
          by_cases hb : (b.bookID == bid) = true <;>
            simp [Function.comp, hb]
        rw [hpred, hrow]
        simp only [Option.map_some']
        rw [if_pos hrowbid]
      · constructor
        · intro _
          exact hpos
        · intro _
          exact ⟨rfl, by simp⟩

/-- Witness for C1: issuing the only copy of an existing book succeeds and
decrements its AvailableCopies from 1 to 0. -/
theorem issue_book_spec_witness :
    (0 < (1 : Int)) ∧
    (issue_book [⟨"B1", "T", "A", 1, 1⟩] [] [] "U1" "N" "B1" 7).1
      = IssueResult.issued ∧
    (issue_book [⟨"B1", "T", "A", 1, 1⟩] [] [] "U1" "N" "B1" 7).2.2.1
      = [] ++ [⟨"U1", "N", "B1", 7, none⟩] ∧
    (issue_book [⟨"B1", "T", "A", 1, 1⟩] [] [] "U1" "N" "B1" 7).2.2.2
      = [] ++ [⟨"U1", "B1", "Issued", 7⟩] ∧
    (issue_book [⟨"B1", "T", "A", 1, 1⟩] [] [] "U1" "N" "B1" 7).2.1.find?
        (fun b => b.bookID == "B1")
      = some ⟨"B1", "T", "A", 1, 0⟩ :=
  ⟨by decide,
   ((issue_book_spec [⟨"B1", "T", "A", 1, 1⟩] [] [] "U1" "N" "B1" 7).2
      ⟨"B1", "T", "A", 1, 1⟩ (by decide)).2.1 (by decide)⟩

/-! ### C2: return -/

/-- C2. `return_book` with a matching outstanding loan: elapsed time is the
whole number of days between the first matching loan's IssueDate and now
(fractional days discarded — the bounds characterize truncation); the fine
is `max 0 ((elapsed - 14) * FINE_PER_DAY)` and is 0 whenever
`elapsed ≤ 14`; the selected loan's ReturnDate is set to now; the book's
AvailableCopies increases by exactly 1; exactly one "Returned" LogEntry is
appended.  With no matching outstanding loan: NoActiveLoan and all tables
unchanged. -/
theorem return_book_spec (books : List Book) (users : List Loan)
    (logs : List LogEntry) (uid bid : String) (now : Nat) :
    (users.find? (loanMatches uid bid) = none →
      return_book books users logs uid bid now
        = (ReturnResult.noActiveLoan, books, users, logs)) ∧
    (∀ first, users.find? (loanMatches uid bid) = some first →
      (SECONDS_PER_DAY * ((now - first.issueDate) / SECONDS_PER_DAY)
          ≤ now - first.issueDate ∧
        now - first.issueDate
          < SECONDS_PER_DAY * ((now - first.issueDate) / SECONDS_PER_DAY + 1)) ∧
      (return_book books users logs uid bid now).1
        = ReturnResult.returned
            (max 0 (((((now - first.issueDate) / SECONDS_PER_DAY : Nat) : Int)
              - 14) * FINE_PER_DAY)) ∧
      ((((now - first.issueDate) / SECONDS_PER_DAY : Nat) : Int) ≤ 14 →
        (return_book books users logs uid bid now).1
          = ReturnResult.returned 0) ∧
      (∃ i : Nat, users[i]? = some first ∧
        (return_book books users logs uid bid now).2.2.1[i]?
          = some { first with returnDate := some now }) ∧
      (∀ (i : Nat) (b : Book), books[i]? = some b → b.bookID = bid →
        (return_book books users logs uid bid now).2.1[i]?
          = some { b with availableCopies := b.availableCopies + 1 }) ∧
      (return_book books users logs uid bid now).2.2.2
        = logs ++ [⟨uid, bid, "Returned", now⟩]) := by
  constructor
  · intro h
    simp only [return_book, h]
  · intro first hf
    have hmatch : loanMatches uid bid first = true :=
      List.find?_some (p := loanMatches uid bid) hf
    refine ⟨?_, ?_, ?_, ?_, ?_, ?_⟩
    · simp only [SECONDS_PER_DAY]
      omega
    · simp only [return_book, hf]
    · intro h14
      have hfz : max 0 (((((now - first.issueDate) / SECONDS_PER_DAY : Nat) : Int)
          - 14) * FINE_PER_DAY) = 0 := by
        have h5 : FINE_PER_DAY = 5 := rfl
        rw [h5, max_eq_left]
        omega
      simp only [return_book, hf]
      rw [hfz]
    · have hm := List.mem_of_find?_eq_some hf
      obtain ⟨n, hn, heq⟩ := List.getElem_of_mem hm
      refine ⟨n, ?_, ?_⟩
      · rw [List.getElem?_eq_getElem hn, heq]
      · simp only [return_book, hf, List.getElem?_map,
          List.getElem?_eq_getElem hn, heq, Option.map_some']
        rw [if_pos hmatch]
    · intro i b hib hbid
      have hbeq : (b.bookID == bid) = true := by simpa using hbid
      simp only [return_book, hf, List.getElem?_map, hib, Option.map_some']
      rw [if_pos hbeq]
    · simp only [return_book, hf]

/-- Witness for C2: returning a book issued 20 days (in seconds) earlier
yields the computed fine and restores the copy. -/
theorem return_book_spec_witness :
    (SECONDS_PER_DAY * (((20 * 86400 : Nat) - 0) / SECONDS_PER_DAY)
        ≤ (20 * 86400 : Nat) - 0 ∧
      (20 * 86400 : Nat) - 0
        < SECONDS_PER_DAY * ((((20 * 86400 : Nat) - 0) / SECONDS_PER_DAY) + 1)) ∧
    (return_book [⟨"B1", "T", "A", 1, 0⟩] [⟨"U1", "N", "B1", 0, none⟩] []
        "U1" "B1" (20 * 86400)).1
      = ReturnResult.returned
          (max 0 ((((((20 * 86400 : Nat) - 0) / SECONDS_PER_DAY : Nat) : Int)
            - 14) * FINE_PER_DAY)) ∧
    ((((((20 * 86400 : Nat) - 0) / SECONDS_PER_DAY : Nat) : Int) ≤ 14) →
      (return_book [⟨"B1", "T", "A", 1, 0⟩] [⟨"U1", "N", "B1", 0, none⟩] []
          "U1" "B1" (20 * 86400)).1 = ReturnResult.returned 0) ∧
    (∃ i : Nat, ([⟨"U1", "N", "B1", 0, none⟩] : List Loan)[i]?
        = some ⟨"U1", "N", "B1", 0, none⟩ ∧
      (return_book [⟨"B1", "T", "A", 1, 0⟩] [⟨"U1", "N", "B1", 0, none⟩] []
          "U1" "B1" (20 * 86400)).2.2.1[i]?
        = some ⟨"U1", "N", "B1", 0, some (20 * 86400)⟩) ∧
    (∀ (i : Nat) (b : Book), ([⟨"B1", "T", "A", 1, 0⟩] : List Book)[i]? = some b →
      b.bookID = "B1" →
      (return_book [⟨"B1", "T", "A", 1, 0⟩] [⟨"U1", "N", "B1", 0, none⟩] []
          "U1" "B1" (20 * 86400)).2.1[i]?
        = some { b with availableCopies := b.availableCopies + 1 }) ∧
    (return_book [⟨"B1", "T", "A", 1, 0⟩] [⟨"U1", "N", "B1", 0, none⟩] []
        "U1" "B1" (20 * 86400)).2.2.2
      = [] ++ [⟨"U1", "B1", "Returned", 20 * 86400⟩] :=
  (return_book_spec [⟨"B1", "T", "A", 1, 0⟩] [⟨"U1", "N", "B1", 0, none⟩] []
      "U1" "B1" (20 * 86400)).2 ⟨"U1", "N", "B1", 0, none⟩ (by decide)

/-! ### C4: return with several matching outstanding loans -/

/-- C4 counterexample. With two outstanding loans for the same
(UserID, BookID) pair, `return_book` stamps a ReturnDate on BOTH rows —
the second matching row is not left unchanged, refuting the claim that
only the first match is modified. -/
theorem return_book_stamps_second_match :
    (return_book [] [⟨"U1", "N", "B1", 0, none⟩, ⟨"U1", "N", "B1", 5, none⟩]
        [] "U1" "B1" 10).2.2.1
      = [⟨"U1", "N", "B1", 0, some 10⟩, ⟨"U1", "N", "B1", 5, some 10⟩] ∧
    (⟨"U1", "N", "B1", 5, some 10⟩ : Loan) ≠ ⟨"U1", "N", "B1", 5, none⟩ := by
  decide

/-- C4 amended. When several Loan rows match (userId, bookId, ReturnDate
absent), `return_book` sets ReturnDate = now on EVERY matching row (the
pandas mask assignment), leaves every non-matching row unchanged, and
computes the fine from the first match's IssueDate. -/
theorem return_book_stamps_all_matches (books : List Book) (users : List Loan)
    (logs : List LogEntry) (uid bid : String) (now : Nat) (first : Loan)
    (hf : users.find? (loanMatches uid bid) = some first) :
    (return_book books users logs uid bid now).1
      = ReturnResult.returned
          (max 0 (((((now - first.issueDate) / SECONDS_PER_DAY : Nat) : Int)
            - 14) * FINE_PER_DAY)) ∧
    (return_book books users logs uid bid now).2.2.1.length = users.length ∧
    (∀ (i : Nat) (l : Loan), users[i]? = some l →
      (loanMatches uid bid l = true →
        (return_book books users logs uid bid now).2.2.1[i]?
          = some { l with returnDate := some now }) ∧
      (loanMatches uid bid l = false →
        (return_book books users logs uid bid now).2.2.1[i]? = some l)) := by
  refine ⟨?_, ?_, ?_⟩
  · simp only [return_book, hf]
  · simp only [return_book, hf, List.length_map]
  · intro i l hil
    constructor
    · intro hm
      simp only [return_book, hf, List.getElem?_map, hil, Option.map_some']
      rw [if_pos hm]
    · intro hm
      simp only [return_book, hf, List.getElem?_map, hil, Option.map_some']
      rw [if_neg (by simp [hm])]

/-- Witness for the amended C4: in a state with two outstanding loans on the
same book by different users, the matching row gets stamped and the
non-matching row stays unchanged. -/
theorem return_book_stamps_all_matches_witness :
    (return_book [] [⟨"U1", "N", "B1", 0, none⟩, ⟨"U2", "N", "B1", 5, none⟩]
        [] "U1" "B1" 10).1
      = ReturnResult.returned
          (max 0 (((((10 - 0) / SECONDS_PER_DAY : Nat) : Int) - 14)
            * FINE_PER_DAY)) ∧
    (return_book [] [⟨"U1", "N", "B1", 0, none⟩, ⟨"U2", "N", "B1", 5, none⟩]
        [] "U1" "B1" 10).2.2.1.length
      = ([⟨"U1", "N", "B1", 0, none⟩, ⟨"U2", "N", "B1", 5, none⟩] : List Loan).length ∧
    (∀ (i : Nat) (l : Loan),
      ([⟨"U1", "N", "B1", 0, none⟩, ⟨"U2", "N", "B1", 5, none⟩] : List Loan)[i]?
        = some l →
      (loanMatches "U1" "B1" l = true →
        (return_book [] [⟨"U1", "N", "B1", 0, none⟩, ⟨"U2", "N", "B1", 5, none⟩]
            [] "U1" "B1" 10).2.2.1[i]?
          = some { l with returnDate := some 10 }) ∧
      (loanMatches "U1" "B1" l = false →
        (return_book [] [⟨"U1", "N", "B1", 0, none⟩, ⟨"U2", "N", "B1", 5, none⟩]
            [] "U1" "B1" 10).2.2.1[i]? = some l)) :=
  return_book_stamps_all_matches []
    [⟨"U1", "N", "B1", 0, none⟩, ⟨"U2", "N", "B1", 5, none⟩] [] "U1" "B1" 10
    ⟨"U1", "N", "B1", 0, none⟩ (by decide)

/-! ### C10: Books-table frame of issue and return -/

theorem issue_books_shape (books : List Book) (users : List Loan)
    (logs : List LogEntry) (uid nm bid : String) (now : Nat) :
    (issue_book books users logs uid nm bid now).2.1 = books ∨
    (issue_book books users logs uid nm bid now).2.1
      = books.map (fun b =>
          if b.bookID == bid then
            { b with availableCopies := b.availableCopies - 1 }
          else b) := by
  rcases h : books.find? (fun b => b.bookID == bid) with _ | row
  · left
    simp only [issue_book, h]
  · by_cases hav : row.availableCopies ≤ 0
    · left
      simp only [issue_book, h]
      rw [if_pos hav]
    · right
      simp only [issue_book, h]
      rw [if_neg hav]

theorem return_books_shape (books : List Book) (users : List Loan)
    (logs : List LogEntry) (uid bid : String) (now : Nat) :
    (return_book books users logs uid bid now).2.1 = books ∨
    (return_book books users logs uid bid now).2.1
      = books.map (fun b =>
          if b.bookID == bid then
            { b with availableCopies := b.availableCopies + 1 }
          else b) := by
  rcases h : users.find? (loanMatches uid bid) with _ | first
  · left
    simp only [return_book, h]
  · right
    simp only [return_book, h]

/-- C10. Neither `issue_book` nor `return_book` adds or removes a Books
row, every row keeps its BookID, Title, Author and TotalCopies, and a row
whose BookID differs from the given bookId is entirely unchanged (only
matching rows can have their AvailableCopies adjusted). -/
theorem issue_return_books_frame (books : List Book) (users : List Loan)
    (logs : List LogEntry) (uid nm bid : String) (now : Nat) :
    (issue_book books users logs uid nm bid now).2.1.length = books.length ∧
    (return_book books users logs uid bid now).2.1.length = books.length ∧
    (∀ (i : Nat) (b : Book), books[i]? = some b →
      ∃ b2 : Book, (issue_book books users logs uid nm bid now).2.1[i]? = some b2 ∧
        b2.bookID = b.bookID ∧ b2.title = b.title ∧ b2.author = b.author ∧
        b2.totalCopies = b.totalCopies ∧ (b.bookID ≠ bid → b2 = b)) ∧
    (∀ (i : Nat) (b : Book), books[i]? = some b →
      ∃ b2 : Book, (return_book books users logs uid bid now).2.1[i]? = some b2 ∧
        b2.bookID = b.bookID ∧ b2.title = b.title ∧ b2.author = b.author ∧
        b2.totalCopies = b.totalCopies ∧ (b.bookID ≠ bid → b2 = b)) := by
  have hi := issue_books_shape books users logs uid nm bid now
  have hr := return_books_shape books users logs uid bid now
  refine ⟨?_, ?_, ?_, ?_⟩
  · rcases hi with h | h <;> simp [h]
  · rcases hr with h | h <;> simp [h]
  · intro i b hib
    rcases hi with h | h
    · exact ⟨b, by rw [h, hib], rfl, rfl, rfl, rfl, fun _ => rfl⟩
    · by_cases hb : (b.bookID == bid) = true
      · refine ⟨{ b with availableCopies := b.availableCopies - 1 }, ?_,
          rfl, rfl, rfl, rfl, fun hne => absurd (by simpa using hb) hne⟩
        rw [h]
        simp only [List.getElem?_map, hib, Option.map_some']
        rw [if_pos hb]
      · refine ⟨b, ?_, rfl, rfl, rfl, rfl, fun _ => rfl⟩
        rw [h]
        simp only [List.getElem?_map, hib, Option.map_some']
        rw [if_neg (by simpa using hb)]
  · intro i b hib
    rcases hr with h | h
    · exact ⟨b, by rw [h, hib], rfl, rfl, rfl, rfl, fun _ => rfl⟩
    · by_cases hb : (b.bookID == bid) = true
      · refine ⟨{ b with availableCopies := b.availableCopies + 1 }, ?_,
          rfl, rfl, rfl, rfl, fun hne => absurd (by simpa using hb) hne⟩
        rw [h]
        simp only [List.getElem?_map, hib, Option.map_some']
        rw [if_pos hb]
      · refine ⟨b, ?_, rfl, rfl, rfl, rfl, fun _ => rfl⟩
        rw [h]
        simp only [List.getElem?_map, hib, Option.map_some']
        rw [if_neg (by simpa using hb)]

/-- Witness for C10: on a two-book table, issuing "B1" leaves the row of
"B2" byte-for-byte unchanged and preserves all identity fields of "B1". -/
theorem issue_return_books_frame_witness :
    (issue_book [⟨"B1", "T", "A", 2, 2⟩, ⟨"B2", "S", "C", 3, 3⟩] [] []
        "U1" "N" "B1" 0).2.1.length
      = ([⟨"B1", "T", "A", 2, 2⟩, ⟨"B2", "S", "C", 3, 3⟩] : List Book).length ∧
    (∃ b2 : Book,
      (issue_book [⟨"B1", "T", "A", 2, 2⟩, ⟨"B2", "S", "C", 3, 3⟩] [] []
          "U1" "N" "B1" 0).2.1[1]? = some b2 ∧
      b2.bookID = (⟨"B2", "S", "C", 3, 3⟩ : Book).bookID ∧
      b2.title = (⟨"B2", "S", "C", 3, 3⟩ : Book).title ∧
      b2.author = (⟨"B2", "S", "C", 3, 3⟩ : Book).author ∧
      b2.totalCopies = (⟨"B2", "S", "C", 3, 3⟩ : Book).totalCopies ∧
      ((⟨"B2", "S", "C", 3, 3⟩ : Book).bookID ≠ "B1" →
        b2 = ⟨"B2", "S", "C", 3, 3⟩)) :=
  ⟨(issue_return_books_frame [⟨"B1", "T", "A", 2, 2⟩, ⟨"B2", "S", "C", 3, 3⟩]
      [] [] "U1" "N" "B1" 0).1,
   (issue_return_books_frame [⟨"B1", "T", "A", 2, 2⟩, ⟨"B2", "S", "C", 3, 3⟩]
      [] [] "U1" "N" "B1" 0).2.2.1 1 ⟨"B2", "S", "C", 3, 3⟩ (by decide)⟩

/-! ### C3: the availability invariant -/

theorem outstandingCount_eq_countP (users : List Loan) (bid : String) :
    outstandingCount users bid
      = users.countP (fun l => l.bookID == bid && l.returnDate.isNone) := by
  simp [outstandingCount, List.countP_eq_length_filter]

theorem loanMatches_fields {uid bid : String} {l : Loan}
    (h : loanMatches uid bid l = true) :
    l.userID = uid ∧ l.bookID = bid ∧ l.returnDate = none := by
  simp only [loanMatches, Bool.and_eq_true, beq_iff_eq,
    Option.isNone_iff_eq_none] at h
  exact ⟨h.1.1, h.1.2, h.2⟩

theorem countP_if_mask_split {α : Type} (p mask : α → Bool) (l : List α)
    (h : ∀ x ∈ l, mask x = true → p x = true) :
    l.countP (fun x => !(mask x) && p x) + l.countP mask
      = l.countP p := by
  induction l with
  | nil => rfl
  | cons x xs ih =>
    have ihx := ih (fun y hy hm => h y (List.mem_cons_of_mem x hy) hm)
    rw [List.countP_cons, List.countP_cons, List.countP_cons]
    by_cases hm : mask x = true
    · have hp := h x (List.mem_cons_self x xs) hm
      simp [hm, hp, Bool.not_true, Bool.false_and]
      omega
    · have hm0 : mask x = false := by
        rw [Bool.eq_false_iff]; exact hm
      simp [hm0]
      omega

theorem outstandingCount_stamp (users : List Loan) (uid bid bid2 : String)
    (now : Nat) :
    outstandingCount (users.map (fun l =>
        if loanMatches uid bid l then { l with returnDate := some now } else l))
      bid2
    + (if bid2 = bid then (users.filter (loanMatches uid bid)).length else 0)
    = outstandingCount users bid2 := by
  rw [outstandingCount_eq_countP, outstandingCount_eq_countP,
    List.countP_map, ← List.countP_eq_length_filter]
  by_cases hb : bid2 = bid
  · subst hb
    rw [if_pos rfl]
    have hcongr : users.countP ((fun l : Loan => l.bookID == bid2 && l.returnDate.isNone)
          ∘ (fun l : Loan =>
            if loanMatches uid bid2 l then { l with returnDate := some now }
            else l))
        = users.countP (fun l : Loan =>
            !(loanMatches uid bid2 l) && (l.bookID == bid2 && l.returnDate.isNone)) := by
      apply List.countP_congr
      intro l _
      by_cases hm : loanMatches uid bid2 l = true
      · simp [Function.comp, hm]
      · simp [Function.comp, hm]
    rw [hcongr]
    exact countP_if_mask_split _ _ users (fun l _ hm => by
      rcases loanMatches_fields hm with ⟨-, hlb, hlr⟩
      simp [hlb, hlr])
  · rw [if_neg hb, Nat.add_zero]
    apply List.countP_congr
    intro l _
    by_cases hm : loanMatches uid bid l = true
    · rcases loanMatches_fields hm with ⟨-, hlb, -⟩
      simp [Function.comp, hm, hlb, Ne.symm hb]
    · simp [Function.comp, hm]

theorem add_book_shape (books : List Book) (bid t a : String)
    (copies? : Option Int) :
    (add_book books bid t a copies?).2 = books ∨
    (∃ c : Int, copies? = some c ∧ 1 ≤ c ∧
      books.any (fun b => b.bookID == bid) = false ∧
      (add_book books bid t a copies?).2 = books ++ [⟨bid, t, a, c, c⟩]) := by
  unfold add_book
  split
  · left; rfl
  next hany =>
    rcases copies? with _ | c
    · left; rfl
    · simp only
      split
      · left; rfl
      next hlt =>
        right
        exact ⟨c, rfl, by omega, by rw [Bool.eq_false_iff]; exact hany, rfl⟩

theorem issue_book_shape (books : List Book) (users : List Loan)
    (logs : List LogEntry) (uid nm bid : String) (now : Nat) :
    ((issue_book books users logs uid nm bid now).2.1 = books ∧
      (issue_book books users logs uid nm bid now).2.2.1 = users) ∨
    (∃ row, books.find? (fun b => b.bookID == bid) = some row ∧
      0 < row.availableCopies ∧
      (issue_book books users logs uid nm bid now).2.1
        = books.map (fun b => if b.bookID == bid then
            { b with availableCopies := b.availableCopies - 1 } else b) ∧
      (issue_book books users logs uid nm bid now).2.2.1
        = users ++ [⟨uid, nm, bid, now, none⟩]) := by
  rcases h : books.find? (fun b => b.bookID == bid) with _ | row
  · left
    simp only [issue_book, h]
    simp
  · by_cases hav : row.availableCopies ≤ 0
    · left
      simp only [issue_book, h]
      rw [if_pos hav]
      exact ⟨rfl, rfl⟩
    · right
      refine ⟨row, h, by omega, ?_, ?_⟩
      · simp only [issue_book, h]
        rw [if_neg hav]
      · simp only [issue_book, h]
        rw [if_neg hav]

/-- C3 counterexample.  A reachable, invariant-satisfying state (one book
with 2 copies, both out to the same user) where one `return_book` call
closes BOTH outstanding loans while incrementing AvailableCopies by only
1, breaking `AvailableCopies = TotalCopies - count(outstanding)`. -/
theorem invariant_broken_by_return :
    ((([⟨"B1", "T", "A", 2, 0⟩] : List Book).map Book.bookID).Nodup ∧
      refIntegrity [⟨"B1", "T", "A", 2, 0⟩]
        [⟨"U1", "N", "B1", 0, none⟩, ⟨"U1", "N", "B1", 0, none⟩] ∧
      invariantHolds [⟨"B1", "T", "A", 2, 0⟩]
        [⟨"U1", "N", "B1", 0, none⟩, ⟨"U1", "N", "B1", 0, none⟩]) ∧
    ¬ invariantHolds
        (return_book [⟨"B1", "T", "A", 2, 0⟩]
          [⟨"U1", "N", "B1", 0, none⟩, ⟨"U1", "N", "B1", 0, none⟩] []
          "U1" "B1" 5).2.1
        (return_book [⟨"B1", "T", "A", 2, 0⟩]
          [⟨"U1", "N", "B1", 0, none⟩, ⟨"U1", "N", "B1", 0, none⟩] []
          "U1" "B1" 5).2.2.1 := by
  decide

/-- C3 amended.  Starting from a state satisfying the invariant together
with the data model's structural constraints (unique BookIDs; every
outstanding Loan references an existing Book), `add_book` and `issue_book`
preserve `AvailableCopies = TotalCopies - count(outstanding)` (and the
bound `count ≤ TotalCopies`); `return_book` preserves it provided at most
one Loan row matches (userId, bookId, ReturnDate absent) — with several
matches it closes all of them while incrementing AvailableCopies once,
which is exactly the failure shown by the counterexample. -/
theorem invariant_preservation (books : List Book) (users : List Loan)
    (logs : List LogEntry) (uid nm bid t a : String) (copies? : Option Int)
    (now : Nat)
    (hnodup : (books.map Book.bookID).Nodup)
    (href : refIntegrity books users)
    (hinv : invariantHolds books users) :
    invariantHolds (add_book books bid t a copies?).2 users ∧
    invariantHolds (issue_book books users logs uid nm bid now).2.1
      (issue_book books users logs uid nm bid now).2.2.1 ∧
    ((users.filter (loanMatches uid bid)).length ≤ 1 →
      invariantHolds (return_book books users logs uid bid now).2.1
        (return_book books users logs uid bid now).2.2.1) := by
  refine ⟨?_, ?_, ?_⟩
  · -- add_book
    rcases add_book_shape books bid t a copies? with h | ⟨c, -, hc1, hany, h⟩
    · rw [h]; exact hinv
    · rw [h]
      intro b hb
      rcases List.mem_append.1 hb with hb | hb
      · exact hinv b hb
      · have hbeq : b = ⟨bid, t, a, c, c⟩ := by simpa using hb
        subst hbeq
        have hout : outstandingCount users bid = 0 := by
          rw [outstandingCount_eq_countP]
          rw [List.countP_eq_zero]
          intro l hl hp
          simp only [Bool.and_eq_true, beq_iff_eq] at hp
          have hmem : l.bookID ∈ books.map Book.bookID := href l hl hp.2
          rw [hp.1] at hmem
          have := (any_bookID_iff_mem books bid).2 hmem
          rw [hany] at this
          exact absurd this (by simp)
        refine ⟨by simp [hout], ?_⟩
        simp [hout]
        omega
  · -- issue_book
    rcases issue_book_shape books users logs uid nm bid now with
      ⟨h1, h2⟩ | ⟨row, hfind, hpos, h1, h2⟩
    · rw [h1, h2]; exact hinv
    · rw [h1, h2]
      intro b hb
      rcases List.mem_map.1 hb with ⟨b0, hb0, hmap⟩
      have hrowmem := List.mem_of_find?_eq_some hfind
      have hrowbid : row.bookID = bid := by
        simpa using List.find?_some (p := fun b : Book => b.bookID == bid) hfind
      rcases hinv b0 hb0 with ⟨he, hle⟩
      by_cases hb0bid : (b0.bookID == bid) = true
      · have hb0bid2 : b0.bookID = bid := by simpa using hb0bid
        have hb0eq : b0 = row :=
          List.inj_on_of_nodup_map hnodup hb0 hrowmem (by rw [hb0bid2, hrowbid])
        rw [if_pos hb0bid] at hmap
        subst hmap
        have hcount : outstandingCount (users ++ [⟨uid, nm, bid, now, none⟩]) b0.bookID
            = outstandingCount users b0.bookID + 1 := by
          rw [outstandingCount_eq_countP, outstandingCount_eq_countP,
            List.countP_append]
          simp [hb0bid2]
        have hpos2 : 0 < b0.availableCopies := hb0eq ▸ hpos
        refine ⟨?_, ?_⟩ <;> simp only [hcount] <;> push_cast <;> omega
      · rw [if_neg hb0bid] at hmap
        subst hmap
        have hb0ne : ¬ b0.bookID = bid := by simpa using hb0bid
        have hcount : outstandingCount (users ++ [⟨uid, nm, bid, now, none⟩]) b0.bookID
            = outstandingCount users b0.bookID := by
          rw [outstandingCount_eq_countP, outstandingCount_eq_countP,
            List.countP_append]
          have hne2 : ¬ bid = b0.bookID := fun h => hb0ne (Eq.symm h)
          simp [hne2]
        exact ⟨by rw [hcount]; exact he, by rw [hcount]; exact hle⟩
  · -- return_book
    intro hle1
    rcases hret : users.find? (loanMatches uid bid) with _ | first
    · simp only [return_book, hret]; exact hinv
    · have hfirstmem := List.mem_of_find?_eq_some hret
      have hfirstmatch : loanMatches uid bid first = true :=
        List.find?_some (p := loanMatches uid bid) hret
      have hcm : (users.filter (loanMatches uid bid)).length = 1 := by
        have hpos0 : 0 < (users.filter (loanMatches uid bid)).length := by
          rw [← List.countP_eq_length_filter]
          exact List.countP_pos_iff.2 ⟨first, hfirstmem, hfirstmatch⟩
        omega
      simp only [return_book, hret]
      intro b hb
      rcases List.mem_map.1 hb with ⟨b0, hb0, hmap⟩
      rcases hinv b0 hb0 with ⟨he, hle⟩
      have hstamp := outstandingCount_stamp users uid bid b0.bookID now
      by_cases hb0bid : (b0.bookID == bid) = true
      · have hb0bid2 : b0.bookID = bid := by simpa using hb0bid
        rw [if_pos hb0bid] at hmap
        subst hmap
        rw [if_pos hb0bid2, hcm] at hstamp
        have hposc : 0 < outstandingCount users b0.bookID := by
          rw [outstandingCount_eq_countP]
          apply List.countP_pos_iff.2
          refine ⟨first, hfirstmem, ?_⟩
          rcases loanMatches_fields hfirstmatch with ⟨-, hfb, hfr⟩
          simp [hfb, hfr, hb0bid2]
        refine ⟨?_, ?_⟩ <;> dsimp only <;> omega
      · rw [if_neg hb0bid] at hmap
        subst hmap
        have hb0ne : ¬ b0.bookID = bid := by simpa using hb0bid
        rw [if_neg hb0ne] at hstamp
        refine ⟨?_, ?_⟩ <;> omega

/-- Witness for the amended C3 at a concrete well-formed state: one book,
one outstanding loan; all three operations preserve the invariant. -/
theorem invariant_preservation_witness :
    invariantHolds
      (add_book [⟨"B1", "T", "A", 2, 1⟩] "B1" "S" "C" (some 3)).2
      [⟨"U1", "N", "B1", 0, none⟩] ∧
    invariantHolds
      (issue_book [⟨"B1", "T", "A", 2, 1⟩] [⟨"U1", "N", "B1", 0, none⟩] []
        "U2" "M" "B1" 9).2.1
      (issue_book [⟨"B1", "T", "A", 2, 1⟩] [⟨"U1", "N", "B1", 0, none⟩] []
        "U2" "M" "B1" 9).2.2.1 ∧
    invariantHolds
      (return_book [⟨"B1", "T", "A", 2, 1⟩] [⟨"U1", "N", "B1", 0, none⟩] []
        "U1" "B1" 9).2.1
      (return_book [⟨"B1", "T", "A", 2, 1⟩] [⟨"U1", "N", "B1", 0, none⟩] []
        "U1" "B1" 9).2.2.1 :=
  ⟨(invariant_preservation [⟨"B1", "T", "A", 2, 1⟩] [⟨"U1", "N", "B1", 0, none⟩]
      [] "U2" "M" "B1" "S" "C" (some 3) 9 (by decide) (by decide) (by decide)).1,
   (invariant_preservation [⟨"B1", "T", "A", 2, 1⟩] [⟨"U1", "N", "B1", 0, none⟩]
      [] "U2" "M" "B1" "S" "C" (some 3) 9 (by decide) (by decide) (by decide)).2.1,
   (invariant_preservation [⟨"B1", "T", "A", 2, 1⟩] [⟨"U1", "N", "B1", 0, none⟩]
      [] "U1" "M" "B1" "S" "C" (some 3) 9 (by decide) (by decide) (by decide)).2.2
     (by decide)⟩

/-! ### C8: top-borrowed report -/

theorem lookupTitle_eq_title (books : List Book) (x : String)
    (hnb : (books.map Book.bookID).Nodup) (bk : Book) (hbk : bk ∈ books)
    (hx : bk.bookID = x) : lookupTitle books x = bk.title := by
  rcases hfind : books.find? (fun b => b.bookID == x) with _ | b
  · exfalso
    have hsome : (books.find? (fun b => b.bookID == x)).isSome := by
      rw [List.find?_isSome]
      exact ⟨bk, hbk, by simpa using hx⟩
    rw [hfind] at hsome
    simp at hsome
  · have hbmem := List.mem_of_find?_eq_some hfind
    have hbx : b.bookID = x := by
      simpa using List.find?_some (p := fun b : Book => b.bookID == x) hfind
    have hbbk : b = bk :=
      List.inj_on_of_nodup_map hnb hbmem hbk (by rw [hbx, hx])
    simp [lookupTitle, hfind, hbbk]

theorem lookupTitle_fallback (books : List Book) (x : String)
    (h : x ∉ books.map Book.bookID) : lookupTitle books x = x := by
  have hf := (find?_bookID_eq_none_iff books x).2 h
  simp [lookupTitle, hf]

/-- C8. For a non-empty Loans table (and unique BookIDs in Books), the
top-borrowed report selects at most 5 distinct BookIDs; each is counted
over ALL Loan rows (outstanding and returned alike); the selection is
sorted by count and dominates every unselected BookID's count; each
selected BookID is labelled with its Title from Books, falling back to the
raw BookID string when no Book row carries it. -/
theorem visualize_top_books_spec (users : List Loan) (books : List Book)
    (hne : users ≠ [])
    (hnb : (books.map Book.bookID).Nodup) :
    ∃ sel : List (String × Nat),
      visualize_top_books users books
        = some (sel.map (fun p => (lookupTitle books p.1, p.2))) ∧
      sel.length = min 5 (users.map Loan.bookID).dedup.length ∧
      (∀ p ∈ sel, p.1 ∈ users.map Loan.bookID ∧
        p.2 = countOcc (users.map Loan.bookID) p.1) ∧
      (sel.map Prod.fst).Nodup ∧
      sel.Pairwise (fun p q => q.2 ≤ p.2) ∧
      (∀ b2 ∈ users.map Loan.bookID, b2 ∉ sel.map Prod.fst →
        ∀ p ∈ sel, countOcc (users.map Loan.bookID) b2 ≤ p.2) ∧
      (∀ p ∈ sel,
        (∀ bk ∈ books, bk.bookID = p.1 →
          lookupTitle books p.1 = bk.title) ∧
        (p.1 ∉ books.map Book.bookID → lookupTitle books p.1 = p.1)) := by
  have hie : users.isEmpty = false := by
    cases users with
    | nil => exact absurd rfl hne
    | cons u us => rfl
  set l := users.map Loan.bookID with hldef
  set le : String × Nat → String × Nat → Bool :=
    fun p q => decide (q.2 ≤ p.2) with hledef
  set base : List (String × Nat) :=
    l.dedup.map (fun b => (b, countOcc l b)) with hbasedef
  have hvc : value_counts l = base.mergeSort le := rfl
  have hperm : (value_counts l).Perm base := by
    rw [hvc]; exact List.mergeSort_perm base le
  have hsorted : (value_counts l).Pairwise (fun p q => le p q = true) := by
    rw [hvc]
    apply List.sorted_mergeSort
    · intro p q r hpq hqr
      simp only [hledef, decide_eq_true_iff] at hpq hqr ⊢
      omega
    · intro p q
      simp only [hledef]
      by_cases h : q.2 ≤ p.2
      · simp [h]
      · simp [h]
        omega
  refine ⟨(value_counts l).take 5, ?_, ?_, ?_, ?_, ?_, ?_, ?_⟩
  · simp only [visualize_top_books, hie, Bool.false_eq_true, if_false]
  · rw [List.length_take, hperm.length_eq, hbasedef, List.length_map]
  · intro p hp
    have hpvc : p ∈ value_counts l := (List.take_sublist 5 _).subset hp
    have hpbase : p ∈ base := hperm.mem_iff.1 hpvc
    rcases List.mem_map.1 hpbase with ⟨b, hb, hpb⟩
    have hbl : b ∈ l := List.mem_dedup.1 hb
    rw [← hpb]
    exact ⟨hbl, rfl⟩
  · have hvcids : ((value_counts l).map Prod.fst).Nodup := by
      have hpermids : ((value_counts l).map Prod.fst).Perm (base.map Prod.fst) :=
        hperm.map Prod.fst
      have hbi : base.map Prod.fst = l.dedup := by
        rw [hbasedef, List.map_map]
        exact List.map_id _
      rw [hpermids.nodup_iff, hbi]
      exact l.nodup_dedup
    exact hvcids.sublist ((List.take_sublist 5 _).map Prod.fst)
  · exact ((List.Pairwise.sublist (List.take_sublist 5 _) hsorted).imp
      (fun h => by simpa [hledef] using h))
  · intro b2 hb2 hb2sel p hp
    have hprbase : (b2, countOcc l b2) ∈ base :=
      List.mem_map.2 ⟨b2, List.mem_dedup.2 hb2, rfl⟩
    have hprvc : (b2, countOcc l b2) ∈ value_counts l := hperm.mem_iff.2 hprbase
    have hsplit := List.take_append_drop 5 (value_counts l)
    have hsorted2 : ((value_counts l).take 5 ++ (value_counts l).drop 5).Pairwise
        (fun p q => le p q = true) := by
      rw [hsplit]; exact hsorted
    have hcross := (List.pairwise_append.1 hsorted2).2.2
    have hprdrop : (b2, countOcc l b2) ∈ (value_counts l).drop 5 := by
      rcases List.mem_append.1 (by rw [hsplit]; exact hprvc) with h | h
      · exfalso
        exact hb2sel (List.mem_map.2 ⟨(b2, countOcc l b2), h, rfl⟩)
      · exact h
    have := hcross p hp (b2, countOcc l b2) hprdrop
    simpa [hledef] using this
  · intro p hp
    exact ⟨fun bk hbk hbid => lookupTitle_eq_title books p.1 hnb bk hbk hbid,
      fun hnm => lookupTitle_fallback books p.1 hnm⟩

/-- Witness for C8 on a concrete non-empty Loans table. -/
theorem visualize_top_books_spec_witness :
    ∃ sel : List (String × Nat),
      visualize_top_books
          [⟨"U1", "N", "B1", 0, none⟩, ⟨"U2", "M", "B1", 1, some 2⟩] []
        = some (sel.map (fun p => (lookupTitle [] p.1, p.2))) ∧
      sel.length = min 5
        (([⟨"U1", "N", "B1", 0, none⟩, ⟨"U2", "M", "B1", 1, some 2⟩] : List Loan).map
          Loan.bookID).dedup.length ∧
      (∀ p ∈ sel,
        p.1 ∈ ([⟨"U1", "N", "B1", 0, none⟩, ⟨"U2", "M", "B1", 1, some 2⟩] : List Loan).map
          Loan.bookID ∧
        p.2 = countOcc
          (([⟨"U1", "N", "B1", 0, none⟩, ⟨"U2", "M", "B1", 1, some 2⟩] : List Loan).map
            Loan.bookID) p.1) ∧
      (sel.map Prod.fst).Nodup ∧
      sel.Pairwise (fun p q => q.2 ≤ p.2) ∧
      (∀ b2 ∈ ([⟨"U1", "N", "B1", 0, none⟩, ⟨"U2", "M", "B1", 1, some 2⟩] : List Loan).map
          Loan.bookID, b2 ∉ sel.map Prod.fst →
        ∀ p ∈ sel,
          countOcc
            (([⟨"U1", "N", "B1", 0, none⟩, ⟨"U2", "M", "B1", 1, some 2⟩] : List Loan).map
              Loan.bookID) b2 ≤ p.2) ∧
      (∀ p ∈ sel,
        (∀ bk ∈ ([] : List Book), bk.bookID = p.1 →
          lookupTitle [] p.1 = bk.title) ∧
        (p.1 ∉ ([] : List Book).map Book.bookID → lookupTitle [] p.1 = p.1)) :=
  visualize_top_books_spec
    [⟨"U1", "N", "B1", 0, none⟩, ⟨"U2", "M", "B1", 1, some 2⟩] []
    (by decide) (by decide)

/-! ### C7: flat-file round trip

The storage adapter (`load_data` / `save_data`, main.py lines 24-35) writes
the three DataFrames with `to_csv` and reads them back with `read_csv`
(`parse_dates` on the IssueDate/ReturnDate/Date columns).  The model below
captures that boundary at the cell level: `to_csv` renders NaN/NaT as an
empty field, int64 as its decimal text and strings verbatim; `read_csv`
re-infers each column's dtype from the whole column — a column whose every
field is an integer literal comes back as int64, which is what loses
string BookIDs such as "007".  Timestamps are rendered by an injective
decimal encoding standing for the ISO timestamp text, which `to_datetime`
reads back exactly. -/

/-- One dynamically-typed table cell as pandas holds it in memory:
NaN/NaT, an int64, a string, or a timestamp. -/
inductive Cell where
  | nan
  | int (n : Int)
  | str (s : String)
  | date (t : Nat)
deriving Repr, DecidableEq

def digitChar (n : Nat) : Char := Char.ofNat (48 + n)

def digitVal (c : Char) : Nat := c.toNat - 48

/-- Decimal digits of `n`, most significant first (fuel-based so that it
computes by kernel reduction; the fuel `n + 1` always suffices). -/
def natDigitsAux : Nat → Nat → List Char
  | 0, _ => []
  | fuel + 1, n =>
    if n < 10 then [digitChar n]
    else natDigitsAux fuel (n / 10) ++ [digitChar (n % 10)]

def natDigits (n : Nat) : List Char := natDigitsAux (n + 1) n

def natRepr (n : Nat) : String := String.mk (natDigits n)

/-- Decimal rendering of an int64 cell, as `to_csv` writes it. -/
def intRepr (n : Int) : String :=
  if n < 0 then String.mk ('-' :: natDigits n.natAbs)
  else natRepr n.natAbs

def parseNatChars (cs : List Char) : Nat :=
  cs.foldl (fun acc c => acc * 10 + digitVal c) 0

def isDigits (cs : List Char) : Bool := !cs.isEmpty && cs.all Char.isDigit

def parseNatStr (s : String) : Option Nat :=
  if isDigits s.data then some (parseNatChars s.data) else none

/-- Integer-literal recognition and value, as `read_csv` type inference
applies it to a field. -/
def parseIntStr (s : String) : Option Int :=
  if s.data.head? = some '-' then
    (parseNatStr (String.mk s.data.tail)).map (fun n => -(n : Int))
  else
    (parseNatStr s).map (fun n => (n : Int))

def isIntString (s : String) : Bool := (parseIntStr s).isSome

/-- `to_csv` rendering of one cell: NaN/NaT becomes an empty field, int64
its decimal text, a string is written verbatim (fields that would require
CSV quoting are outside the plain fragment, see `csvPlain`), a timestamp
its decimal encoding. -/
def serializeCell : Cell → String
  | Cell.nan => ""
  | Cell.int n => intRepr n
  | Cell.str s => s
  | Cell.date t => natRepr t

def saveTable (t : List (List Cell)) : List (List String) :=
  t.map (List.map serializeCell)

/-- `read_csv` parse of one field, given whether its column is listed in
`parse_dates` and whether the whole column consists of integer literals
(pandas infers the dtype of a column from all of its rows). -/
def parseCellAt (dateCol intCol : Bool) (s : String) : Cell :=
  if dateCol then
    if s = "" then Cell.nan
    else
      match parseNatStr s with
      | some t => Cell.date t
      | none => Cell.str s
  else if intCol then Cell.int ((parseIntStr s).getD 0)
  else if s = "" then Cell.nan
  else Cell.str s

/-- Does every row's `j`-th field parse as an integer literal? -/
def colAllInt (rows : List (List String)) (j : Nat) : Bool :=
  rows.all (fun r => isIntString (r.getD j ""))

def parseRow (dateMask : List Bool) (intAt : Nat → Bool) :
    Nat → List String → List Cell
  | _, [] => []
  | j, s :: rest =>
    parseCellAt (dateMask.getD j false) (intAt j) s ::
      parseRow dateMask intAt (j + 1) rest

def loadTable (dateMask : List Bool) (rows : List (List String)) :
    List (List Cell) :=
  rows.map (parseRow dateMask (colAllInt rows) 0)

/-- Books are read with no `parse_dates` columns. -/
def booksDateMask : List Bool := []

/-- Loans: `parse_dates=["IssueDate", "ReturnDate"]` (columns 3 and 4). -/
def loansDateMask : List Bool := [false, false, false, true, true]

/-- Logs: `parse_dates=["Date"]` (column 3). -/
def logsDateMask : List Bool := [false, false, false, true]

/-- The in-memory cell row of a Books record. -/
def Book.toCells (b : Book) : List Cell :=
  [Cell.str b.bookID, Cell.str b.title, Cell.str b.author,
   Cell.int b.totalCopies, Cell.int b.availableCopies]

/-- The in-memory cell row of a Loans record (`NaT` for an outstanding
loan's ReturnDate). -/
def Loan.toCells (l : Loan) : List Cell :=
  [Cell.str l.userID, Cell.str l.name, Cell.str l.bookID,
   Cell.date l.issueDate,
   match l.returnDate with
   | some t => Cell.date t
   | none => Cell.nan]

/-- The in-memory cell row of a Logs record. -/
def LogEntry.toCells (e : LogEntry) : List Cell :=
  [Cell.str e.userID, Cell.str e.bookID, Cell.str e.action, Cell.date e.date]

/-- `save_data(books, users, logs)` (main.py lines 31-35). -/
def save_data (books users logs : List (List Cell)) :
    List (List String) × List (List String) × List (List String) :=
  (saveTable books, saveTable users, saveTable logs)

/-- `load_data()` (main.py lines 24-29). -/
def load_data (bfile ufile lfile : List (List String)) :
    List (List Cell) × List (List Cell) × List (List Cell) :=
  (loadTable booksDateMask bfile, loadTable loansDateMask ufile,
   loadTable logsDateMask lfile)

def csvSpecial (c : Char) : Bool :=
  c == ',' || c == '"' || c == '\n' || c == '\r'

def numericLikeChar (c : Char) : Bool :=
  c.isDigit || c == '-' || c == '+' || c == '.' || c == 'e' || c == 'E'

/-- Markers `read_csv` turns into NaN or booleans rather than strings. -/
def naMarkers : List String :=
  ["NA", "N/A", "NaN", "nan", "NULL", "null", "None",
   "True", "False", "TRUE", "FALSE", "true", "false"]

/-- Strings that survive the CSV round trip verbatim: not an integer
literal, not made only of numeric-looking characters (hence non-empty and
not a float/scientific literal `read_csv` would retype), free of
delimiter/quote/newline characters, and not an NA or boolean marker. -/
def csvPlain (s : String) : Bool :=
  !(isIntString s) && !(s.data.all numericLikeChar) &&
  s.data.all (fun c => !(csvSpecial c)) && !(naMarkers.contains s)

theorem digitVal_digitChar {n : Nat} (h : n < 10) :
    digitVal (digitChar n) = n := by
  interval_cases n <;> rfl

theorem isDigit_digitChar {n : Nat} (h : n < 10) :
    (digitChar n).isDigit = true := by
  interval_cases n <;> rfl

theorem parseNatChars_append (cs : List Char) (c : Char) :
    parseNatChars (cs ++ [c]) = parseNatChars cs * 10 + digitVal c := by
  simp [parseNatChars, List.foldl_append]

theorem natDigitsAux_spec :
    ∀ fuel n : Nat, n < fuel →
      parseNatChars (natDigitsAux fuel n) = n ∧
      natDigitsAux fuel n ≠ [] ∧
      (natDigitsAux fuel n).all Char.isDigit = true := by
  intro fuel
  induction fuel with
  | zero => intro n h; exact absurd h (Nat.not_lt_zero n)
  | succ f ih =>
    intro n h
    by_cases h10 : n < 10
    · simp only [natDigitsAux, if_pos h10]
      refine ⟨?_, by simp, ?_⟩
      · simp [parseNatChars, digitVal_digitChar h10]
      · simp [isDigit_digitChar h10]
    · have hdlt : n / 10 < n := Nat.div_lt_self (by omega) (by decide)
      have hfuel : n / 10 < f := by omega
      rcases ih (n / 10) hfuel with ⟨ih1, ih2, ih3⟩
      have hmod : n % 10 < 10 := Nat.mod_lt n (by decide)
      simp only [natDigitsAux, if_neg h10]
      refine ⟨?_, by simp, ?_⟩
      · rw [parseNatChars_append, ih1, digitVal_digitChar hmod]
        omega
      · rw [List.all_append]
        simp [ih3, isDigit_digitChar hmod]

theorem natDigits_spec (n : Nat) :
    parseNatChars (natDigits n) = n ∧ natDigits n ≠ [] ∧
    (natDigits n).all Char.isDigit = true :=
  natDigitsAux_spec (n + 1) n (Nat.lt_succ_self n)

theorem parseNatStr_natRepr (n : Nat) : parseNatStr (natRepr n) = some n := by
  rcases natDigits_spec n with ⟨h1, h2, h3⟩
  have hmk : (natRepr n).data = natDigits n := rfl
  rw [parseNatStr, hmk]
  rw [if_pos (by simp [isDigits, h2, h3])]
  rw [h1]

theorem natRepr_ne_empty (n : Nat) : ¬ (natRepr n = "") := by
  rcases natDigits_spec n with ⟨-, h2, -⟩
  intro hcontra
  have : (natRepr n).data = natDigits n := rfl
  rw [hcontra] at this
  exact h2 this.symm

theorem head_natDigits_not_dash (n : Nat) :
    ¬ ((natDigits n).head? = some '-') := by
  rcases natDigits_spec n with ⟨-, h2, h3⟩
  cases hd : natDigits n with
  | nil => exact absurd hd h2
  | cons c cs =>
    rw [hd] at h3
    simp only [List.all_cons, Bool.and_eq_true] at h3
    intro hcontra
    simp only [List.head?_cons, Option.some.injEq] at hcontra
    rw [hcontra] at h3
    exact absurd h3.1 (by decide)

theorem parseIntStr_intRepr (n : Int) : parseIntStr (intRepr n) = some n := by
  by_cases hneg : n < 0
  · have h1 : intRepr n = String.mk ('-' :: natDigits n.natAbs) := by
      rw [intRepr, if_pos hneg]
    rw [h1, parseIntStr]
    rw [if_pos (show (String.mk ('-' :: natDigits n.natAbs)).data.head?
      = some '-' from rfl)]
    have hp : parseNatStr (String.mk (String.mk
        ('-' :: natDigits n.natAbs)).data.tail) = some n.natAbs := by
      have he : String.mk (String.mk ('-' :: natDigits n.natAbs)).data.tail
          = natRepr n.natAbs := rfl
      rw [he, parseNatStr_natRepr]
    rw [hp]
    simp [abs_of_neg hneg]
  · rw [intRepr, if_neg hneg, parseIntStr]
    have hnd : ¬ ((natRepr n.natAbs).data.head? = some '-') :=
      head_natDigits_not_dash n.natAbs
    rw [if_neg hnd, parseNatStr_natRepr]
    simp [abs_of_nonneg (not_lt.1 hneg)]

theorem isIntString_intRepr (n : Int) : isIntString (intRepr n) = true := by
  simp [isIntString, parseIntStr_intRepr]

theorem csvPlain_not_int {s : String} (h : csvPlain s = true) :
    isIntString s = false := by
  simp only [csvPlain, Bool.and_eq_true, Bool.not_eq_eq_eq_not, Bool.not_true] at h
  exact h.1.1.1

theorem csvPlain_ne_empty {s : String} (h : csvPlain s = true) : ¬ (s = "") := by
  intro he
  rw [he] at h
  exact absurd h (by decide)

theorem saveTable_books (books : List Book) :
    saveTable (books.map Book.toCells)
      = books.map (fun b => [b.bookID, b.title, b.author,
          intRepr b.totalCopies, intRepr b.availableCopies]) := by
  simp only [saveTable, List.map_map]
  apply List.map_congr_left
  intro b _
  rfl

theorem saveTable_loans (users : List Loan) :
    saveTable (users.map Loan.toCells)
      = users.map (fun l => [l.userID, l.name, l.bookID,
          natRepr l.issueDate,
          match l.returnDate with
          | some t => natRepr t
          | none => ""]) := by
  simp only [saveTable, List.map_map]
  apply List.map_congr_left
  intro l _
  cases hr : l.returnDate <;> simp [Loan.toCells, serializeCell, hr]

theorem saveTable_logs (logs : List LogEntry) :
    saveTable (logs.map LogEntry.toCells)
      = logs.map (fun e => [e.userID, e.bookID, e.action, natRepr e.date]) := by
  simp only [saveTable, List.map_map]
  apply List.map_congr_left
  intro e _
  rfl

theorem colAllInt_books_int (books : List Book) :
    colAllInt (saveTable (books.map Book.toCells)) 3 = true ∧
    colAllInt (saveTable (books.map Book.toCells)) 4 = true := by
  rw [saveTable_books]
  constructor <;>
  · rw [colAllInt, List.all_eq_true]
    intro r hr
    rcases List.mem_map.1 hr with ⟨b, -, rfl⟩
    simp [isIntString_intRepr]

theorem colAllInt_books_str (b0 : Book) (rest : List Book)
    (h0 : csvPlain b0.bookID = true) (h1 : csvPlain b0.title = true)
    (h2 : csvPlain b0.author = true) :
    colAllInt (saveTable ((b0 :: rest).map Book.toCells)) 0 = false ∧
    colAllInt (saveTable ((b0 :: rest).map Book.toCells)) 1 = false ∧
    colAllInt (saveTable ((b0 :: rest).map Book.toCells)) 2 = false := by
  rw [saveTable_books]
  refine ⟨?_, ?_, ?_⟩
  · simp [colAllInt, csvPlain_not_int h0]
  · simp [colAllInt, csvPlain_not_int h1]
  · simp [colAllInt, csvPlain_not_int h2]

theorem colAllInt_loans_str (l0 : Loan) (rest : List Loan)
    (h0 : csvPlain l0.userID = true) (h1 : csvPlain l0.name = true)
    (h2 : csvPlain l0.bookID = true) :
    colAllInt (saveTable ((l0 :: rest).map Loan.toCells)) 0 = false ∧
    colAllInt (saveTable ((l0 :: rest).map Loan.toCells)) 1 = false ∧
    colAllInt (saveTable ((l0 :: rest).map Loan.toCells)) 2 = false := by
  rw [saveTable_loans]
  refine ⟨?_, ?_, ?_⟩
  · simp [colAllInt, csvPlain_not_int h0]
  · simp [colAllInt, csvPlain_not_int h1]
  · simp [colAllInt, csvPlain_not_int h2]

theorem colAllInt_logs_str (e0 : LogEntry) (rest : List LogEntry)
    (h0 : csvPlain e0.userID = true) (h1 : csvPlain e0.bookID = true)
    (h2 : csvPlain e0.action = true) :
    colAllInt (saveTable ((e0 :: rest).map LogEntry.toCells)) 0 = false ∧
    colAllInt (saveTable ((e0 :: rest).map LogEntry.toCells)) 1 = false ∧
    colAllInt (saveTable ((e0 :: rest).map LogEntry.toCells)) 2 = false := by
  rw [saveTable_logs]
  refine ⟨?_, ?_, ?_⟩
  · simp [colAllInt, csvPlain_not_int h0]
  · simp [colAllInt, csvPlain_not_int h1]
  · simp [colAllInt, csvPlain_not_int h2]

theorem loadTable_books (books : List Book)
    (hb : ∀ b ∈ books, csvPlain b.bookID = true ∧ csvPlain b.title = true ∧
      csvPlain b.author = true) :
    loadTable booksDateMask (saveTable (books.map Book.toCells))
      = books.map Book.toCells := by
  cases books with
  | nil => rfl
  | cons b0 rest =>
    rcases hb b0 (List.mem_cons_self b0 rest) with ⟨h0, h1, h2⟩
    rcases colAllInt_books_int (b0 :: rest) with ⟨hc3, hc4⟩
    rcases colAllInt_books_str b0 rest h0 h1 h2 with ⟨hc0, hc1, hc2⟩
    simp only [loadTable]
    rw [saveTable_books] at hc0 hc1 hc2 hc3 hc4
    simp only [List.map_cons] at hc0 hc1 hc2 hc3 hc4
    rw [saveTable_books, List.map_map]
    apply List.map_congr_left
    intro b hbmem
    rcases hb b hbmem with ⟨hb0, hb1, hb2⟩
    simp only [Function.comp]
    simp [parseRow, parseCellAt, booksDateMask, hc0, hc1, hc2, hc3, hc4,
      csvPlain_ne_empty hb0, csvPlain_ne_empty hb1, csvPlain_ne_empty hb2,
      parseIntStr_intRepr, Book.toCells]

theorem loadTable_loans (users : List Loan)
    (hu : ∀ l ∈ users, csvPlain l.userID = true ∧ csvPlain l.name = true ∧
      csvPlain l.bookID = true) :
    loadTable loansDateMask (saveTable (users.map Loan.toCells))
      = users.map Loan.toCells := by
  cases users with
  | nil => rfl
  | cons l0 rest =>
    rcases hu l0 (List.mem_cons_self l0 rest) with ⟨h0, h1, h2⟩
    rcases colAllInt_loans_str l0 rest h0 h1 h2 with ⟨hc0, hc1, hc2⟩
    simp only [loadTable]
    rw [saveTable_loans] at hc0 hc1 hc2
    simp only [List.map_cons] at hc0 hc1 hc2
    rw [saveTable_loans, List.map_map]
    apply List.map_congr_left
    intro l hlmem
    rcases hu l hlmem with ⟨hl0, hl1, hl2⟩
    simp only [Function.comp]
    cases hr : l.returnDate with
    | none =>
      simp [parseRow, parseCellAt, loansDateMask, hc0, hc1, hc2,
        csvPlain_ne_empty hl0, csvPlain_ne_empty hl1, csvPlain_ne_empty hl2,
        natRepr_ne_empty, parseNatStr_natRepr, Loan.toCells, hr]
    | some t =>
      simp [parseRow, parseCellAt, loansDateMask, hc0, hc1, hc2,
        csvPlain_ne_empty hl0, csvPlain_ne_empty hl1, csvPlain_ne_empty hl2,
        natRepr_ne_empty, parseNatStr_natRepr, Loan.toCells, hr]

theorem loadTable_logs (logs : List LogEntry)
    (hl : ∀ e ∈ logs, csvPlain e.userID = true ∧ csvPlain e.bookID = true ∧
      csvPlain e.action = true) :
    loadTable logsDateMask (saveTable (logs.map LogEntry.toCells))
      = logs.map LogEntry.toCells := by
  cases logs with
  | nil => rfl
  | cons e0 rest =>
    rcases hl e0 (List.mem_cons_self e0 rest) with ⟨h0, h1, h2⟩
    rcases colAllInt_logs_str e0 rest h0 h1 h2 with ⟨hc0, hc1, hc2⟩
    simp only [loadTable]
    rw [saveTable_logs] at hc0 hc1 hc2
    simp only [List.map_cons] at hc0 hc1 hc2
    rw [saveTable_logs, List.map_map]
    apply List.map_congr_left
    intro e hemem
    rcases hl e hemem with ⟨he0, he1, he2⟩
    simp only [Function.comp]
    simp [parseRow, parseCellAt, logsDateMask, hc0, hc1, hc2,
      csvPlain_ne_empty he0, csvPlain_ne_empty he1, csvPlain_ne_empty he2,
      natRepr_ne_empty, parseNatStr_natRepr, LogEntry.toCells]

/-- C7 counterexample.  The valid Books table whose single row is
Book("007", "T", "A", 1, 1) does not survive the save/load round trip:
`read_csv` type inference re-reads the all-numeric BookID column as int64,
so the string "007" comes back as the integer 7. -/
theorem round_trip_retypes_numeric_id :
    load_data
        (save_data ([⟨"007", "T", "A", 1, 1⟩].map Book.toCells) [] []).1
        (save_data ([⟨"007", "T", "A", 1, 1⟩].map Book.toCells) [] []).2.1
        (save_data ([⟨"007", "T", "A", 1, 1⟩].map Book.toCells) [] []).2.2
      ≠ (([⟨"007", "T", "A", 1, 1⟩].map Book.toCells),
         ([] : List (List Cell)), ([] : List (List Cell))) := by
  decide

/-- C7 amended.  Saving and re-loading returns the three tables exactly,
for every triple whose string fields are csv-plain (non-empty, not
number-like, no delimiter/quote/newline characters, not an NA or boolean
marker); integer fields and timestamps, including absent ReturnDate
markers, always survive.  The restriction is forced: a numeric-looking
string field such as BookID "007" is retyped to an integer by `read_csv`'s
column inference, as the counterexample shows. -/
theorem save_load_round_trip (books : List Book) (users : List Loan)
    (logs : List LogEntry)
    (hb : ∀ b ∈ books, csvPlain b.bookID = true ∧ csvPlain b.title = true ∧
      csvPlain b.author = true)
    (hu : ∀ l ∈ users, csvPlain l.userID = true ∧ csvPlain l.name = true ∧
      csvPlain l.bookID = true)
    (hl : ∀ e ∈ logs, csvPlain e.userID = true ∧ csvPlain e.bookID = true ∧
      csvPlain e.action = true) :
    load_data
        (save_data (books.map Book.toCells) (users.map Loan.toCells)
          (logs.map LogEntry.toCells)).1
        (save_data (books.map Book.toCells) (users.map Loan.toCells)
          (logs.map LogEntry.toCells)).2.1
        (save_data (books.map Book.toCells) (users.map Loan.toCells)
          (logs.map LogEntry.toCells)).2.2
      = (books.map Book.toCells, users.map Loan.toCells,
         logs.map LogEntry.toCells) := by
  show (loadTable booksDateMask (saveTable (books.map Book.toCells)),
        loadTable loansDateMask (saveTable (users.map Loan.toCells)),
        loadTable logsDateMask (saveTable (logs.map LogEntry.toCells)))
      = (books.map Book.toCells, users.map Loan.toCells,
         logs.map LogEntry.toCells)
  rw [loadTable_books books hb, loadTable_loans users hu,
    loadTable_logs logs hl]

/-- Witness for the amended C7 on a concrete triple with plain string
fields, an outstanding loan (absent ReturnDate) and a returned one. -/
theorem save_load_round_trip_witness :
    load_data
        (save_data ([⟨"B1", "T", "A", 2, 1⟩].map Book.toCells)
          ([⟨"U1", "Alice", "B1", 86400, none⟩,
            ⟨"U2", "Bob", "B1", 7, some 99⟩].map Loan.toCells)
          ([⟨"U1", "B1", "Issued", 86400⟩].map LogEntry.toCells)).1
        (save_data ([⟨"B1", "T", "A", 2, 1⟩].map Book.toCells)
          ([⟨"U1", "Alice", "B1", 86400, none⟩,
            ⟨"U2", "Bob", "B1", 7, some 99⟩].map Loan.toCells)
          ([⟨"U1", "B1", "Issued", 86400⟩].map LogEntry.toCells)).2.1
        (save_data ([⟨"B1", "T", "A", 2, 1⟩].map Book.toCells)
          ([⟨"U1", "Alice", "B1", 86400, none⟩,
            ⟨"U2", "Bob", "B1", 7, some 99⟩].map Loan.toCells)
          ([⟨"U1", "B1", "Issued", 86400⟩].map LogEntry.toCells)).2.2
      = (([⟨"B1", "T", "A", 2, 1⟩].map Book.toCells),
         ([⟨"U1", "Alice", "B1", 86400, none⟩,
           ⟨"U2", "Bob", "B1", 7, some 99⟩].map Loan.toCells),
         ([⟨"U1", "B1", "Issued", 86400⟩].map LogEntry.toCells)) :=
  save_load_round_trip [⟨"B1", "T", "A", 2, 1⟩]
    [⟨"U1", "Alice", "B1", 86400, none⟩, ⟨"U2", "Bob", "B1", 7, some 99⟩]
    [⟨"U1", "B1", "Issued", 86400⟩]
    (by decide) (by decide) (by decide)
